import Mathlib

/-!
Verification of the X-Ray telemetry SDK core (TypeScript) against its
natural-language specification.

The definitions below are a shallow embedding of the SDK source:

- the field-extraction regex pass and the YES/NO fallback of
  parseDecisionFromResponse;
- the manual session/step API (startStep, endStep, endSession,
  addObservation, addEvent);
- the span projector XRaySpanProcessor.onEnd;
- the instrumentCohere proxy around the chat call.

Strings are embedded as lists of characters.  JavaScript machine timestamps
are embedded as rationals (milliseconds), with the truncation a Date
round-trip performs made explicit.  JavaScript numbers are embedded as
rationals extended with NaN and signed infinities.  Case operations are
modelled on ASCII, matching every input exercised by the theorems.
-/

namespace XRay

/-- Strings of the embedded program: lists of characters. -/
abbrev Str := List Char

/-- ASCII-collated uppercase code of a character, used to compare characters
case-insensitively the way a case-insensitive regex does. -/
def upCode (c : Char) : Nat :=
  if 97 ≤ c.toNat ∧ c.toNat ≤ 122 then c.toNat - 32 else c.toNat

/-- Case-insensitive character equality (ASCII canonicalisation). -/
def charCI (a b : Char) : Bool := upCode a = upCode b

/-- Whitespace class of JavaScript regexes (the class \s), String.trim and
parseFloat: ASCII whitespace plus the Unicode space characters. -/
def isJsWhitespace (c : Char) : Bool :=
  let n := c.toNat
  n = 9 ∨ n = 10 ∨ n = 11 ∨ n = 12 ∨ n = 13 ∨ n = 32 ∨ n = 160 ∨ n = 5760 ∨
  (8192 ≤ n ∧ n ≤ 8202) ∨ n = 8232 ∨ n = 8233 ∨ n = 8239 ∨ n = 8287 ∨
  n = 12288 ∨ n = 65279

/-- JavaScript String.prototype.trim: strip leading and trailing whitespace. -/
def trimStr (s : Str) : Str :=
  ((s.dropWhile isJsWhitespace).reverse.dropWhile isJsWhitespace).reverse

/-- Boolean prefix test on embedded strings. -/
def startsWithStr : Str → Str → Bool
  | _, [] => true
  | [], _ :: _ => false
  | c :: cs, d :: ds => c = d ∧ startsWithStr cs ds

/-- Boolean prefix test, case-insensitive on ASCII. -/
def startsWithStrCI : Str → Str → Bool
  | _, [] => true
  | [], _ :: _ => false
  | c :: cs, d :: ds => charCI c d ∧ startsWithStrCI cs ds

/-- Case-sensitive substring test (String.prototype.includes). -/
def containsSub : Str → Str → Bool
  | hay, needle =>
    startsWithStr hay needle ||
      match hay with
      | [] => false
      | _ :: rest => containsSub rest needle

/-- Substring test after uppercasing the haystack, embedding the source's
line.toUpperCase().includes(needle) for an uppercase needle. -/
def containsSubCI : Str → Str → Bool
  | hay, needle =>
    startsWithStrCI hay needle ||
      match hay with
      | [] => false
      | _ :: rest => containsSubCI rest needle

/-- Split a string at every occurrence of a separator character, keeping empty
pieces, as String.prototype.split with a one-character separator does. -/
def splitOnChar (sep : Char) (s : Str) : List Str :=
  match s with
  | [] => [[]]
  | c :: rest =>
    let tail := splitOnChar sep rest
    if c = sep then [] :: tail
    else
      match tail with
      | [] => [[c]]
      | piece :: more => (c :: piece) :: more

/-- Join a list of strings with a single-space separator
(Array.prototype.join with a one-space argument). -/
def joinSpace : List Str → Str
  | [] => []
  | [l] => l
  | l :: rest => l ++ ' ' :: joinSpace rest

/-! ### Field extraction regex

The decision parser matches, for each marker keyword table entry, the
case-insensitive regex

  KEY:\s*([\s\S]+?)(?=\n[A-Z_]+:|$)

without the multiline flag, and keeps the first match.  The embedding below
reproduces the backtracking search of that regex: scan for the leftmost
position where one of the alternative keywords followed by a colon matches;
there let the greedy \s* consume whitespace and let the lazy capture grow
from one character until the lookahead holds.  The lookahead holds at the end
of the text or before a newline followed by a word of letters or underscores
and a colon -- because of the ignore-case flag the class written [A-Z_] also
matches lowercase letters. -/

/-- Characters accepted by the class [A-Z_] under the ignore-case flag. -/
def isMarkerChar (c : Char) : Bool :=
  (65 ≤ c.toNat ∧ c.toNat ≤ 90) ∨ (97 ≤ c.toNat ∧ c.toNat ≤ 122) ∨ c = '_'

/-- The lookahead (?=\n[A-Z_]+:|$) tested against a suffix of the text. -/
def stopHere (s : Str) : Bool :=
  match s with
  | [] => true
  | '\n' :: rest =>
    let run := rest.takeWhile isMarkerChar
    match run, rest.drop run.length with
    | _ :: _, ':' :: _ => true
    | _, _ => false
  | _ => false

/-- Lazy capture of the regex: take one character, then keep taking characters
until the lookahead holds at the remaining suffix. -/
def captureFrom : Str → Str
  | [] => []
  | c :: rest => c :: (if stopHere rest then [] else captureFrom rest)

/-- Match a keyword case-insensitively at the head of a suffix, returning the
matched characters as written in the text and the remainder. -/
def stripCI : Str → Str → Option (Str × Str)
  | t, [] => some ([], t)
  | [], _ :: _ => none
  | c :: cs, k :: ks =>
    if charCI c k then (stripCI cs ks).map (fun p => (c :: p.1, p.2)) else none

/-- Match a keyword followed by a colon at the head of a suffix. -/
def stripKwColon (t kw : Str) : Option (Str × Str) :=
  match stripCI t kw with
  | some (m, ':' :: rest) => some (m, rest)
  | _ => none

/-- Complete the regex after the colon: \s* consumes greedily, the capture is
lazy and nonempty.  When everything after the colon is whitespace and nonempty
the engine backtracks one whitespace character, which then forms the capture
(it trims to the empty string).  When nothing follows the colon the position
fails. -/
def matchAfterColon (rest : Str) : Option Str :=
  let rest2 := rest.dropWhile isJsWhitespace
  match rest2 with
  | _ :: _ => some (captureFrom rest2)
  | [] =>
    match rest with
    | [] => none
    | _ :: _ => some (rest.drop (rest.length - 1))

/-- Try the keyword alternatives in order at one position; on failure of the
completion the engine backtracks into the next alternative. -/
def tryAlts (t : Str) : List Str → Option Str
  | [] => none
  | kw :: kws =>
    match stripKwColon t kw with
    | some (_, rest) =>
      match matchAfterColon rest with
      | some raw => some raw
      | none => tryAlts t kws
    | none => tryAlts t kws

/-- Leftmost-match scan of the whole field regex over the text: the raw
(untrimmed) capture group of the first match, if any. -/
def findFieldMatch : Str → List Str → Option Str
  | [], _ => none
  | t@(_ :: rest), kws =>
    match tryAlts t kws with
    | some raw => some raw
    | none => findFieldMatch rest kws

/-- Captured and trimmed value of one marker table entry, embedding
match[1].trim() on a successful match. -/
def extractField (t : Str) (kws : List Str) : Option Str :=
  (findFieldMatch t kws).map trimStr

/-! ### JavaScript numbers and parseFloat -/

/-- JavaScript numbers as used by the SDK: NaN, signed infinities, or a
finite value embedded as a rational. -/
inductive JsNum where
  | nan : JsNum
  | inf (neg : Bool) : JsNum
  | val (q : ℚ) : JsNum
deriving DecidableEq

/-- Decimal digit test. -/
def isDigitChar (c : Char) : Bool := 48 ≤ c.toNat ∧ c.toNat ≤ 57

/-- Numeric value of a string of decimal digits. -/
def natOfDigits (ds : Str) : Nat := ds.foldl (fun a c => 10 * a + (c.toNat - 48)) 0

/-- Exponent part of a decimal literal: e or E, an optional sign and digits;
an exponent marker without digits is not consumed and contributes nothing. -/
def parseExponent (t : Str) : Int :=
  match t with
  | 'e' :: r | 'E' :: r =>
    match r with
    | '+' :: r2 =>
      let ds := r2.takeWhile isDigitChar
      if ds.isEmpty then 0 else (natOfDigits ds : Int)
    | '-' :: r2 =>
      let ds := r2.takeWhile isDigitChar
      if ds.isEmpty then 0 else -(natOfDigits ds : Int)
    | _ =>
      let ds := r.takeWhile isDigitChar
      if ds.isEmpty then 0 else (natOfDigits ds : Int)
  | _ => 0

/-- JavaScript parseFloat: strip leading whitespace, read an optional sign,
then the longest prefix that is Infinity or a decimal literal; if no such
prefix exists the result is NaN.  The finite value is kept exact as a
rational. -/
def jsParseFloat (s : Str) : JsNum :=
  let t0 := s.dropWhile isJsWhitespace
  let signed :=
    match t0 with
    | '-' :: r => (true, r)
    | '+' :: r => (false, r)
    | _ => (false, t0)
  let neg := signed.1
  let t := signed.2
  if startsWithStr t ("Infinity".data) then JsNum.inf neg
  else
    let ip := t.takeWhile isDigitChar
    let t1 := t.drop ip.length
    let fracAndRest :=
      match t1 with
      | '.' :: r => (r.takeWhile isDigitChar, r.dropWhile isDigitChar)
      | _ => (([] : Str), t1)
    let fp := fracAndRest.1
    let t2 := fracAndRest.2
    if ip.isEmpty ∧ fp.isEmpty then JsNum.nan
    else
      let mant : ℚ := (natOfDigits (ip ++ fp) : ℚ) / (10 : ℚ) ^ fp.length
      let mag : ℚ := mant * (10 : ℚ) ^ parseExponent t2
      JsNum.val (if neg then -mag else mag)

/-! ### Decision parser -/

/-- Structured result of parseDecisionFromResponse.  A missing value is the
JavaScript null of the source, embedded as none.  The raw field map is
embedded as a lookup function from field name to stored string. -/
structure ParsedDecision where
  agent : Option Str
  confidence : Option JsNum
  reasoning : Option Str
  recipient : Option Str
  message : Option Str
  title : Option Str
  attendees : Option (List Str)
  datetime : Option Str
  urgency : Option Str
  yesNo : Option Bool
  rawFields : String → Option Str

/-- Initial result object of parseDecisionFromResponse: every field null and
an empty raw-field map. -/
def emptyDecision : ParsedDecision :=
  { agent := none, confidence := none, reasoning := none, recipient := none
  , message := none, title := none, attendees := none, datetime := none
  , urgency := none, yesNo := none, rawFields := fun _ => none }

/-- Marker table entry AGENT. -/
def kwAgent : List Str := ["AGENT".data]

/-- Marker table entry CONFIDENCE. -/
def kwConfidence : List Str := ["CONFIDENCE".data]

/-- Marker table entry for reasoning, the alternation REASON or REASONING. -/
def kwReasoning : List Str := ["REASON".data, "REASONING".data]

/-- Marker table entry RECIPIENT. -/
def kwRecipient : List Str := ["RECIPIENT".data]

/-- Marker table entry MESSAGE. -/
def kwMessage : List Str := ["MESSAGE".data]

/-- Marker table entry TITLE. -/
def kwTitle : List Str := ["TITLE".data]

/-- Marker table entry DATETIME. -/
def kwDatetime : List Str := ["DATETIME".data]

/-- Marker table entry URGENCY. -/
def kwUrgency : List Str := ["URGENCY".data]

/-- Marker table entry ATTENDEES. -/
def kwAttendees : List Str := ["ATTENDEES".data]

/-- Transform of the attendees value: split on commas and trim each part. -/
def splitAttendees (v : Str) : List Str := (splitOnChar ',' v).map trimStr

/-- Marker loop of parseDecisionFromResponse.  The source iterates over the
key table and, per key, assigns that key's result field and raw-field entry
once; no iteration reads another's output, so the loop is unrolled here into
one record.  The raw-field map stores the trimmed capture for every matched
key, the named fields additionally apply the key's transform (parseFloat for
confidence, the comma split for attendees). -/
def markerPass (t : Str) : ParsedDecision :=
  let agentV := extractField t kwAgent
  let confV := extractField t kwConfidence
  let reasonV := extractField t kwReasoning
  let recV := extractField t kwRecipient
  let msgV := extractField t kwMessage
  let titleV := extractField t kwTitle
  let dtV := extractField t kwDatetime
  let urgV := extractField t kwUrgency
  let attV := extractField t kwAttendees
  { agent := agentV
  , confidence := confV.map jsParseFloat
  , reasoning := reasonV
  , recipient := recV
  , message := msgV
  , title := titleV
  , attendees := attV.map splitAttendees
  , datetime := dtV
  , urgency := urgV
  , yesNo := none
  , rawFields := fun k =>
      if k = "agent" then agentV
      else if k = "confidence" then confV
      else if k = "reasoning" then reasonV
      else if k = "recipient" then recV
      else if k = "message" then msgV
      else if k = "title" then titleV
      else if k = "datetime" then dtV
      else if k = "urgency" then urgV
      else if k = "attendees" then attV
      else none }

/-- JavaScript falsiness of a nullable string: null or the empty string. -/
def strFalsy : Option Str → Bool
  | none => true
  | some s => s.isEmpty

/-- YES/NO fallback of parseDecisionFromResponse: when the raw-field map has
no decision entry, inspect the first non-blank line; YES (case-insensitive)
sets the flag true and records decision YES, NO analogously; when more lines
exist and the reasoning field is falsy, reasoning becomes the remaining
non-blank lines joined with spaces and trimmed. -/
def yesNoFallback (t : Str) (r : ParsedDecision) : ParsedDecision :=
  if (r.rawFields "decision").isSome then r
  else
    match (splitOnChar '\n' t).filter (fun l => (trimStr l).isEmpty = false) with
    | [] => r
    | first :: restLines =>
      if containsSubCI first ("YES".data) then
        let rf := fun k =>
          if k = "decision" then some ("YES".data) else r.rawFields k
        let r1 := { r with yesNo := some true, rawFields := rf }
        if restLines.isEmpty = false ∧ strFalsy r1.reasoning = true then
          { r1 with reasoning := some (trimStr (joinSpace restLines)) }
        else r1
      else if containsSubCI first ("NO".data) then
        let rf := fun k =>
          if k = "decision" then some ("NO".data) else r.rawFields k
        let r1 := { r with yesNo := some false, rawFields := rf }
        if restLines.isEmpty = false ∧ strFalsy r1.reasoning = true then
          { r1 with reasoning := some (trimStr (joinSpace restLines)) }
        else r1
      else r

/-- Embedding of parseDecisionFromResponse: a falsy response (undefined or
the empty string) returns the empty result at once; otherwise the marker
loop runs and then the YES/NO fallback. -/
def parseDecisionFromResponse (response : Option Str) : ParsedDecision :=
  match response with
  | none => emptyDecision
  | some t => if t.isEmpty then emptyDecision else yesNoFallback t (markerPass t)

/-! ### Data model: JavaScript values, Observation, Event, Step, Session

Machine timestamps are rational milliseconds; storing one as an ISO string
and reading it back (the Date round-trip every stored timestamp goes
through) truncates it toward zero to whole milliseconds. -/

/-- Dynamically typed JavaScript value, covering the shapes the SDK stores. -/
inductive JsValue where
  | undef : JsValue
  | nullv : JsValue
  | bool (b : Bool) : JsValue
  | num (n : JsNum) : JsValue
  | str (s : Str) : JsValue
  | arr (elems : List JsValue) : JsValue
  | obj (fields : List (String × JsValue)) : JsValue

/-- JavaScript falsiness of a value: undefined, null, false, 0, NaN and the
empty string are falsy; every object and array is truthy. -/
def jsFalsy : JsValue → Bool
  | .undef => true
  | .nullv => true
  | .bool b => b = false
  | .num .nan => true
  | .num (.val q) => q = 0
  | .num (.inf _) => false
  | .str s => s.isEmpty
  | .arr _ => false
  | .obj _ => false

/-- JavaScript falsiness of a number: 0 and NaN. -/
def jsNumFalsy : JsNum → Bool
  | .nan => true
  | .val q => q = 0
  | .inf _ => false

/-- Truthiness of a nullable-or-undefined string. -/
def truthyStr : Option Str → Bool
  | some l => l.isEmpty = false
  | none => false

/-- Truthiness of a nullable-or-undefined number. -/
def truthyNum : Option JsNum → Bool
  | some n => jsNumFalsy n = false
  | none => false

/-- Truncation a Date round-trip applies to a rational millisecond value:
toward zero to an integer. -/
def truncMs (q : ℚ) : Int := if 0 ≤ q then Int.floor q else Int.ceil q

/-- Observation entity; children may recursively hold further observations. -/
inductive Observation where
  | mk (id : String) (type : String) (label : String) (data : JsValue)
      (result : Option Str) (reason : Option Str) (score : Option JsNum)
      (children : Option (List Observation)) : Observation

/-- Identifier of an observation. -/
def Observation.id : Observation → String
  | .mk i _ _ _ _ _ _ _ => i

/-- Stored data payload of an observation. -/
def Observation.data : Observation → JsValue
  | .mk _ _ _ d _ _ _ _ => d

/-- Stored result tag of an observation. -/
def Observation.result : Observation → Option Str
  | .mk _ _ _ _ r _ _ _ => r

/-- Stored reason of an observation. -/
def Observation.reason : Observation → Option Str
  | .mk _ _ _ _ _ r _ _ => r

/-- Stored score of an observation. -/
def Observation.score : Observation → Option JsNum
  | .mk _ _ _ _ _ _ s _ => s

/-- Stored children of an observation. -/
def Observation.children : Observation → Option (List Observation)
  | .mk _ _ _ _ _ _ _ c => c

/-- Event entity: a timestamped note on a step. -/
structure Event where
  timestamp : Int
  type : String
  message : Str
  data : JsValue

/-- Step entity.  The metrics map is embedded as a lookup function. -/
structure Step where
  stepId : String
  sessionId : String
  name : String
  type : String
  startedAt : Int
  endedAt : Option Int
  durationMs : Option ℚ
  input : JsValue
  output : JsValue
  reasoning : Option Str
  observations : List Observation
  events : List Event
  metrics : String → Option ℚ

/-- Status values a session can hold. -/
inductive SessionStatus where
  | running : SessionStatus
  | completed : SessionStatus
  | failed : SessionStatus
deriving DecidableEq

/-- Argument type of endSession: only the terminal statuses. -/
inductive EndStatus where
  | completed : EndStatus
  | failed : EndStatus
deriving DecidableEq

/-- Inclusion of terminal statuses into session statuses. -/
def EndStatus.toStatus : EndStatus → SessionStatus
  | .completed => .completed
  | .failed => .failed

/-- Session entity. -/
structure Session where
  sessionId : String
  name : String
  startedAt : Int
  endedAt : Option Int
  status : SessionStatus
  metadata : JsValue
  steps : List Step

/-- Embedding of startSession: the created session, which the source also
installs as the current session.  Identifier generation and the clock are
explicit arguments. -/
def startSession (name : String) (metadata : JsValue) (freshId : String) (now : ℚ) :
    Session :=
  { sessionId := freshId, name := name, startedAt := truncMs now, endedAt := none
  , status := .running, metadata := metadata, steps := [] }

/-- Embedding of endSession on the current-session state: with no current
session it is a logged no-op; otherwise it assigns the end timestamp from the
clock and the given terminal status, with no guard against the session having
ended already. -/
def endSession (cur : Option Session) (status : EndStatus) (now : ℚ) : Option Session :=
  match cur with
  | none => none
  | some s => some { s with endedAt := some (truncMs now), status := status.toStatus }

/-- Embedding of startStep on a present current session (with no session the
source throws).  The fresh identifier and the clock are explicit arguments;
the source also pushes the step onto the session, done at the call sites
here. -/
def startStep (sessionId : String) (name : String) (type : String)
    (freshStepId : String) (now : ℚ) : Step :=
  { stepId := freshStepId, sessionId := sessionId, name := name, type := type
  , startedAt := truncMs now, endedAt := none, durationMs := none
  , input := .obj [], output := .obj [], reasoning := none
  , observations := [], events := [], metrics := fun _ => none }

/-- Embedding of endStep: stamp the end from the clock and recompute the
duration as end minus start of the step's stored timestamps. -/
def endStep (step : Step) (now : ℚ) : Step :=
  let ended := truncMs now
  { step with
      endedAt := some ended
      durationMs := some ((ended - step.startedAt : Int) : ℚ) }

/-- Embedding of setInput. -/
def setInput (step : Step) (input : JsValue) : Step := { step with input := input }

/-- Embedding of setOutput. -/
def setOutput (step : Step) (output : JsValue) : Step := { step with output := output }

/-- Embedding of setReasoning. -/
def setReasoning (step : Step) (reasoning : Str) : Step :=
  { step with reasoning := some reasoning }

/-- Argument object of addObservation; optional properties read as undefined
when omitted, embedded as none (and undef for the untyped data payload). -/
structure ObsInput where
  id : String
  type : String
  label : String
  data : JsValue
  result : Option Str
  reason : Option Str
  score : Option JsNum
  children : Option (List Observation)

/-- Normalisation addObservation applies: each field is defaulted through the
JavaScript or-operator, so any falsy supplied value is replaced — data falls
back to an empty object, result, reason and score to null.  Children fall
back to null only when undefined, since an array (even empty) is truthy. -/
def normalizeObservation (o : ObsInput) : Observation :=
  .mk o.id o.type o.label
    (if jsFalsy o.data then .obj [] else o.data)
    (match o.result with
     | some s => if s.isEmpty then none else some s
     | none => none)
    (match o.reason with
     | some s => if s.isEmpty then none else some s
     | none => none)
    (match o.score with
     | some n => if jsNumFalsy n then none else some n
     | none => none)
    o.children

/-- Embedding of addObservation: normalise and append. -/
def addObservation (step : Step) (o : ObsInput) : Step :=
  { step with observations := step.observations ++ [normalizeObservation o] }

/-- Embedding of addEvent: append a note stamped from the clock. -/
def addEvent (step : Step) (type : String) (message : Str) (data : JsValue)
    (now : ℚ) : Step :=
  { step with events := step.events ++
      [{ timestamp := truncMs now, type := type, message := message, data := data }] }

/-- Embedding of addMetric: upsert into the metrics map. -/
def addMetric (step : Step) (name : String) (value : ℚ) : Step :=
  { step with metrics := fun k => if k = name then some value else step.metrics k }

/-! ### Span projector (XRaySpanProcessor.onEnd)

Span times are the tracing layer's second/nanosecond pairs; the span's
duration field is recorded on the span itself.  The clock reads the
projector performs while it runs are collapsed into one explicit
projection-time argument. -/

/-- Second/nanosecond pair of the tracing layer. -/
structure HrTime where
  seconds : Nat
  nanos : Nat
deriving DecidableEq

/-- Millisecond value of a second/nanosecond pair, exact as a rational:
seconds times 1000 plus nanoseconds divided by one million. -/
def hrToMs (t : HrTime) : ℚ := (t.seconds : ℚ) * 1000 + (t.nanos : ℚ) / 1000000

/-- Status codes of the tracing layer, with their numeric protocol values. -/
inductive OtelStatusCode where
  | unset : OtelStatusCode
  | ok : OtelStatusCode
  | error : OtelStatusCode
deriving DecidableEq

/-- Numeric protocol value of a tracing status code. -/
def OtelStatusCode.toNum : OtelStatusCode → ℚ
  | .unset => 0
  | .ok => 1
  | .error => 2

/-- Status object of a finished span. -/
structure OtelStatus where
  code : OtelStatusCode
  message : Option Str

/-- Span attributes the SDK reads or writes, per the span attribute schema. -/
structure SpanAttrs where
  requestSystem : Option Str
  requestModel : Option Str
  requestMessage : Option Str
  requestTemperature : Option JsNum
  responseText : Option Str
  responseReasoning : Option Str
  responseFinishReason : Option Str

/-- Finished span as handed to the processor. -/
structure ReadableSpan where
  name : String
  startTime : HrTime
  endTime : HrTime
  duration : HrTime
  attributes : SpanAttrs
  traceId : String
  spanId : String
  parentSpanId : Option String
  status : OtelStatus

/-- Null-or-string serialisation used when a field was initialised to null. -/
def optStrJs : Option Str → JsValue
  | none => .nullv
  | some s => .str s

/-- Serialisation of the or-null defaulting the projector applies to the
prompt and model attributes: a missing or empty string becomes null. -/
def optStrJsOrNull : Option Str → JsValue
  | none => .nullv
  | some s => if s.isEmpty then .nullv else .str s

/-- Serialisation of a possibly absent attribute kept as written, undefined
when missing. -/
def optStrJsU : Option Str → JsValue
  | none => .undef
  | some s => .str s

/-- Attribute object of a span as a JavaScript value, keys present exactly
for the attributes that were set. -/
def attrsToJs (a : SpanAttrs) : JsValue :=
  .obj (List.filterMap id
    [ (a.requestSystem).map (fun v => ("gen_ai.system", JsValue.str v))
    , (a.requestModel).map (fun v => ("gen_ai.request.model", JsValue.str v))
    , (a.requestMessage).map (fun v => ("gen_ai.request.message", JsValue.str v))
    , (a.requestTemperature).map (fun v => ("gen_ai.request.temperature", JsValue.num v))
    , (a.responseText).map (fun v => ("gen_ai.response.text", JsValue.str v))
    , (a.responseReasoning).map (fun v => ("gen_ai.response.reasoning", JsValue.str v))
    , (a.responseFinishReason).map (fun v => ("gen_ai.response.finish_reason", JsValue.str v)) ])

/-- Raw-field map as a JavaScript object; the parser only ever stores the
table keys and the fallback's decision key, listed here in insertion order. -/
def rawFieldsToJs (f : String → Option Str) : JsValue :=
  .obj (List.filterMap
    (fun k => (f k).map (fun v => (k, JsValue.str v)))
    [ "agent", "confidence", "reasoning", "recipient", "message", "title"
    , "datetime", "urgency", "attendees", "decision" ])

/-- Parsed decision as a JavaScript value. -/
def decisionToJs (d : ParsedDecision) : JsValue :=
  .obj
    [ ("agent", optStrJs d.agent)
    , ("confidence", match d.confidence with | none => .nullv | some n => .num n)
    , ("reasoning", optStrJs d.reasoning)
    , ("recipient", optStrJs d.recipient)
    , ("message", optStrJs d.message)
    , ("title", optStrJs d.title)
    , ("attendees", match d.attendees with
        | none => .nullv
        | some l => .arr (l.map JsValue.str))
    , ("datetime", optStrJs d.datetime)
    , ("urgency", optStrJs d.urgency)
    , ("yesNo", match d.yesNo with | none => .nullv | some b => .bool b)
    , ("rawFields", rawFieldsToJs d.rawFields) ]

/-- Status object of a span as a JavaScript value. -/
def otelStatusToJs (s : OtelStatus) : JsValue :=
  .obj (("code", JsValue.num (.val s.code.toNum)) ::
    (match s.message with
     | some m => [("message", JsValue.str m)]
     | none => []))

/-- Decimal digit characters. -/
def digitChars : Str := "0123456789".data

/-- Decimal rendering of a natural number (fuel-structured recursion on the
number of digits). -/
def natToStrAux : Nat → Nat → Str
  | 0, _ => []
  | f + 1, n =>
    if n < 10 then [digitChars.getD n '0']
    else natToStrAux f (n / 10) ++ [digitChars.getD (n % 10) '0']

/-- Decimal rendering of a natural number. -/
def natToStr (n : Nat) : Str := natToStrAux (n + 1) n

/-- JavaScript Number.prototype.toFixed with zero digits: render the sign,
then the integer closest to the magnitude, ties toward the larger. -/
def jsToFixed0 : JsNum → Str
  | .nan => "NaN".data
  | .inf b => if b then "-Infinity".data else "Infinity".data
  | .val q =>
    if q < 0 then '-' :: natToStr (Int.floor (-q + 1/2)).toNat
    else natToStr (Int.floor (q + 1/2)).toNat

/-- Multiplication of a JavaScript number by a positive rational constant. -/
def jsNumMulPos (n : JsNum) (k : ℚ) : JsNum :=
  match n with
  | .nan => .nan
  | .inf b => .inf b
  | .val q => .val (q * k)

/-- Join a list of strings with a given separator. -/
def joinWith (sep : Str) : List Str → Str
  | [] => []
  | [l] => l
  | l :: rest => l ++ sep ++ joinWith sep rest

/-- Reasoning string the projector synthesises when the parsed decision has
no truthy reasoning but a truthy agent or confidence: the available parts
joined with a bar separator. -/
def synthesizedReasoning (parsed : ParsedDecision) : Option Str :=
  if truthyStr parsed.agent || truthyNum parsed.confidence then
    let parts :=
      (match parsed.agent with
       | some a => if a.isEmpty then [] else ["Selected agent: ".data ++ a]
       | none => []) ++
      (match parsed.confidence with
       | some c =>
         if jsNumFalsy c then []
         else ["Confidence: ".data ++ jsToFixed0 (jsNumMulPos c 100) ++ "%".data]
       | none => [])
    if parts.isEmpty then none else some (joinWith " | ".data parts)
  else none

/-- Projected step before the final endStep call: the step the processor
builds from a finished span, with timestamps and duration taken from the
span's recorded times, input, output, reasoning, the llm_decision
observation and the info/decision events filled in. -/
def projectedStepCore (sessionId freshStepId : String) (span : ReadableSpan)
    (tProj : ℚ) : Step :=
  let st := startStep sessionId span.name "auto_instrumented" freshStepId tProj
  let st := { st with
    startedAt := truncMs (hrToMs span.startTime)
    endedAt := some (truncMs (hrToMs span.endTime))
    durationMs := some (hrToMs span.duration) }
  let prompt := span.attributes.requestMessage
  let response := span.attributes.responseText
  let model := span.attributes.requestModel
  let st := setInput st (.obj
    [ ("prompt", optStrJsOrNull prompt)
    , ("model", optStrJsOrNull model)
    , ("rawAttributes", attrsToJs span.attributes) ])
  let parsed := parseDecisionFromResponse response
  let st := setOutput st (.obj
    [ ("response", optStrJsOrNull response)
    , ("parsedDecision", decisionToJs parsed) ])
  let st :=
    if truthyStr parsed.reasoning then setReasoning st (parsed.reasoning.getD [])
    else
      match synthesizedReasoning parsed with
      | some r => setReasoning st r
      | none => st
  let st := addObservation st
    { id := "span_" ++ span.spanId, type := "llm_decision", label := "LLM Decision"
    , data := .obj
        [ ("traceId", .str span.traceId.data)
        , ("spanId", .str span.spanId.data)
        , ("parentId", match span.parentSpanId with
            | some p => .str p.data
            | none => .undef)
        , ("prompt", optStrJsU prompt)
        , ("response", optStrJsU response)
        , ("parsedDecision", decisionToJs parsed)
        , ("status", otelStatusToJs span.status) ]
    , result := none, reason := none, score := none, children := none }
  let st :=
    if truthyStr model then
      addEvent st "info" ("Model used: ".data ++ model.getD []) .nullv tProj
    else st
  let st :=
    if truthyStr parsed.agent then
      addEvent st "decision" ("Agent selected: ".data ++ parsed.agent.getD [])
        (.obj
          [ ("confidence", match parsed.confidence with
              | none => .nullv
              | some n => .num n)
          , ("reason", optStrJs parsed.reasoning) ]) tProj
    else st
  st

/-- Projected step as the processor leaves it: the built step is passed to
endStep, which stamps the end from the projection-time clock and recomputes
the duration from that stamp. -/
def projectedStep (sessionId freshStepId : String) (span : ReadableSpan)
    (tProj : ℚ) : Step :=
  endStep (projectedStepCore sessionId freshStepId span tProj) tProj

/-- Embedding of onEnd on the current-session state: with no current session
the span is dropped; otherwise the projected step is appended to the
session's steps (the export of the observation is fire-and-forget and out of
scope). -/
def onEnd (cur : Option Session) (span : ReadableSpan) (freshStepId : String)
    (tProj : ℚ) : Option Session :=
  match cur with
  | none => none
  | some s =>
    some { s with steps := s.steps ++ [projectedStep s.sessionId freshStepId span tProj] }

/-! ### Instrumentation proxy (instrumentCohere)

The wrapped chat method mutates the caller's parameter object by appending
the reasoning directive to a truthy string message, opens a span recording
the original message, invokes the underlying call with the mutated
parameters, and on success strips the reasoning suffix matched by the
case-insensitive regex

  (?:^|\n)(?:[\*_]\x7b1,2\x7d)?REASON(?:[\*_]\x7b1,2\x7d)?[:\s]+([\s\S]*?)$

from the response text.  The underlying call is a function argument; an
exception outcome is an error value. -/

/-- Reasoning directive appended to the outgoing prompt. -/
def directive : Str :=
  ("\n\nIMPORTANT: After your response, please explain your reasoning. " ++
   "Start the explanation on a new line with \"REASON: \".").data

/-- Prompt mutation of the wrapped call: a truthy string message gains the
directive suffix; anything else is left alone. -/
def injectMessage (m : JsValue) : JsValue :=
  match m with
  | .str s => if s.isEmpty then .str s else .str (s ++ directive)
  | v => v

/-- Emphasis characters of the class written as a star or underscore. -/
def isEmphChar (c : Char) : Bool := c = '*' ∨ c = '_'

/-- Characters of the separator class: a colon or whitespace. -/
def isSepChar (c : Char) : Bool := c = ':' ∨ isJsWhitespace c

/-- After the keyword and optional closing emphasis: at least one separator
character, consumed greedily, then the capture runs to the end of the text. -/
def afterSep (t : Str) : Option Str :=
  let seps := t.takeWhile isSepChar
  if seps.isEmpty then none else some (t.drop seps.length)

/-- Optional closing emphasis of one or two characters, tried greedily with
backtracking into the shorter options. -/
def afterCloseEmph (t : Str) : Option Str :=
  (match t with
   | a :: b :: r => if isEmphChar a ∧ isEmphChar b then afterSep r else none
   | _ => none) <|>
  (match t with
   | a :: r => if isEmphChar a then afterSep r else none
   | _ => none) <|>
  afterSep t

/-- Match the literal keyword REASON case-insensitively, then the rest of the
pattern. -/
def reasonAfterKw (t : Str) : Option Str :=
  match stripCI t ("REASON".data) with
  | some (_, rest) => afterCloseEmph rest
  | none => none

/-- Try the reasoning pattern at one anchored position, with the optional
opening emphasis of one or two characters tried greedily. -/
def reasonAnchorTry (t : Str) : Option Str :=
  (match t with
   | a :: b :: r => if isEmphChar a ∧ isEmphChar b then reasonAfterKw r else none
   | _ => none) <|>
  (match t with
   | a :: r => if isEmphChar a then reasonAfterKw r else none
   | _ => none) <|>
  reasonAfterKw t

/-- Scan for the leftmost newline anchor at which the reasoning pattern
matches, returning the text before the anchor and the capture. -/
def scanReason : Str → Option (Str × Str)
  | [] => none
  | c :: cs =>
    if c = '\n' then
      match reasonAnchorTry cs with
      | some cap => some ([], cap)
      | none => (scanReason cs).map (fun p => (c :: p.1, p.2))
    else (scanReason cs).map (fun p => (c :: p.1, p.2))

/-- Leftmost match of the reasoning regex: the start-of-text anchor first,
then every newline anchor left to right.  The match always extends to the end
of the text, so the split is the untouched prefix plus the capture. -/
def findReasonSplit (t : Str) : Option (Str × Str) :=
  match reasonAnchorTry t with
  | some cap => some ([], cap)
  | none => scanReason t

/-- Clean text and extracted reasoning of a response text: on a match the
matched span is removed and both parts are trimmed; with no match the
reasoning is empty and the text is merely trimmed. -/
def cohereExtract (text : Str) : Str × Str :=
  match findReasonSplit text with
  | some (pre, cap) => (trimStr pre, trimStr cap)
  | none => (trimStr text, [])

/-- Parameter object of the chat call. -/
structure ChatParams where
  message : JsValue
  model : Option Str
  temperature : Option JsNum

/-- Result object of the chat call. -/
structure ChatResult where
  text : Option Str
  finishReason : Option Str

/-- Exception value: an identity and a message. -/
structure JsErr where
  errId : Nat
  message : Str
deriving DecidableEq

/-- Status a span can be set to by the proxy. -/
inductive ProxyStatus where
  | unset : ProxyStatus
  | okSet : ProxyStatus
  | errSet (message : Str) : ProxyStatus
deriving DecidableEq

/-- Span record the proxy builds around one chat call. -/
structure CohereSpan where
  reqSystem : Str
  reqModel : Option Str
  reqMessage : JsValue
  reqTemperature : Option JsNum
  respText : Option Str
  respReasoning : Option Str
  finishReason : Option Str
  status : ProxyStatus
  exceptions : List JsErr
  ended : Bool

/-- One invocation of the wrapped chat method: the returned triple is the
caller's parameter object as the call leaves it, the outcome returned or
re-thrown to the caller, and the span.  The message is mutated before the
span opens; the span records the original message; on success the clean text
replaces a truthy response text and the reasoning attribute is set when
nonempty; on failure the exception is recorded, the status set to error with
the exception's message, and the same exception re-thrown; the span is ended
on both paths. -/
def instrumentedChat (params : ChatParams)
    (call : ChatParams → Except JsErr ChatResult) :
    ChatParams × Except JsErr ChatResult × CohereSpan :=
  let originalMessage := params.message
  let params2 := { params with message := injectMessage params.message }
  let span0 : CohereSpan :=
    { reqSystem := "cohere".data, reqModel := params.model
    , reqMessage := originalMessage, reqTemperature := params.temperature
    , respText := none, respReasoning := none, finishReason := none
    , status := .unset, exceptions := [], ended := false }
  match call params2 with
  | .ok result =>
    let text := result.text.getD []
    let extracted := cohereExtract text
    let clean := extracted.1
    let reason := extracted.2
    let span1 := { span0 with
      respText := some clean
      respReasoning := if reason.isEmpty then none else some reason
      finishReason := result.finishReason
      status := .okSet
      ended := true }
    let result2 := if truthyStr result.text then { result with text := some clean } else result
    (params2, .ok result2, span1)
  | .error e =>
    (params2, .error e,
      { span0 with exceptions := [e], status := .errSet e.message, ended := true })

/-! ### Specification-side predicates about the field grammar -/

/-- Case-insensitive equality of two strings (ASCII canonicalisation), the
relation between a marker keyword and the characters it matched. -/
def ciEqStr : Str → Str → Bool
  | [], [] => true
  | a :: as, b :: bs => charCI a b && ciEqStr as bs
  | _, _ => false

/-- A captured value has no interior stop: at no split point strictly inside
the capture does the lookahead hold on the remainder of the text.  Together
with the lookahead holding right after the capture this says the capture runs
up to the next marker-shaped token or the end of the text, the next one being
sought from the second captured character on (the capture is nonempty by
construction). -/
def interiorFree (raw suffix : Str) : Prop :=
  ∀ a b, raw = a ++ b → a ≠ [] → b ≠ [] → stopHere (b ++ suffix) = false

/-- Some keyword of the table, followed by a colon, occurs (case-insensitively)
somewhere in the text. -/
def occursKw (t : Str) (kws : List Str) : Prop :=
  ∃ pre m rest kw, kw ∈ kws ∧ t = pre ++ m ++ ':' :: rest ∧ ciEqStr m kw = true

/-! ### Concrete instances used by the witnesses and counterexamples -/

/-- Span with start time 1,000,000,100 ns, end time 1,000,000,900 ns and the
recorded duration of 800 ns, carrying no attributes. -/
def demoSpan : ReadableSpan :=
  { name := "cohere.chat"
  , startTime := { seconds := 1, nanos := 100 }
  , endTime := { seconds := 1, nanos := 900 }
  , duration := { seconds := 0, nanos := 800 }
  , attributes :=
    { requestSystem := none, requestModel := none, requestMessage := none
    , requestTemperature := none, responseText := none
    , responseReasoning := none, responseFinishReason := none }
  , traceId := "trace1", spanId := "span1", parentSpanId := none
  , status := { code := .ok, message := none } }

/-- Freshly started session. -/
def demoSession : Session := startSession "run" (.obj []) "sid" 0

/-- Chat parameters with a nonempty string message. -/
def demoParams : ChatParams :=
  { message := .str "Hi".data, model := some "command-r".data, temperature := none }

/-- Underlying call that succeeds with the synthetic response of the round
trip. -/
def demoCallOK : ChatParams → Except JsErr ChatResult :=
  fun _ => .ok { text := some "Hello there\nREASON: Testing".data, finishReason := none }

/-- Exception thrown by the failing underlying call. -/
def demoErr : JsErr := { errId := 7, message := "boom".data }

/-- Underlying call that throws. -/
def demoCallErr : ChatParams → Except JsErr ChatResult := fun _ => .error demoErr

/-- Freshly started step. -/
def demoStep : Step := startStep "sid" "filter" "custom" "st1" 0

/-- Observation argument whose optional fields are all supplied but falsy:
score zero, empty result and reason strings, undefined data. -/
def demoObs : ObsInput :=
  { id := "o1", type := "product_check", label := "Check", data := .undef
  , result := some [], reason := some [], score := some (.val 0), children := none }

/-! ## Theorems -/

/-- The YES/NO fallback never writes the confidence field. -/
theorem yesNoFallback_confidence (t : Str) (r : ParsedDecision) :
    (yesNoFallback t r).confidence = r.confidence := by
  unfold yesNoFallback
  repeat' split
  all_goals
    first
    | rfl
    | (simp only []; split <;> rfl)

/-- The YES/NO fallback leaves a truthy reasoning field alone. -/
theorem yesNoFallback_reasoning (t : Str) (r : ParsedDecision)
    (h : strFalsy r.reasoning = false) : (yesNoFallback t r).reasoning = r.reasoning := by
  unfold yesNoFallback
  repeat' split
  all_goals
    first
    | rfl
    | (simp only []
       split <;> first
       | rfl
       | (rename_i hc; simp [h] at hc))

/-- C2, amended: the second endSession call on the same current session is
not a no-op; it overwrites the end timestamp with its own clock reading and
the status with its own argument, the session holding a single status value
throughout. -/
theorem endSession_twice_overwrites (s : Session) (st1 st2 : EndStatus) (t1 t2 : ℚ) :
    endSession (endSession (some s) st1 t1) st2 t2 =
      some { s with endedAt := some (truncMs t2), status := st2.toStatus } := rfl

/-- C2, counterexample to the claim as stated: ending the demo session at
time 100 and again at time 200 leaves endedAt at 200, not at the first
call's 100. -/
theorem endSession_twice_changes_endedAt :
    (endSession (endSession (some demoSession) .completed 100) .completed 200).map
        Session.endedAt = some (some 200) ∧ (200 : Int) ≠ (100 : Int) := by
  constructor
  · show some (some (truncMs 200)) = some (some 200)
    norm_num [truncMs]
  · decide

/-- C9: addObservation defaults every falsy supplied optional field, not only
missing ones — a supplied score of zero is stored as null, a supplied empty
result or reason string is stored as null, a missing or otherwise falsy data
payload is stored as an empty object — hence no stored observation ever
carries a zero score, and the normalised observation is appended to the
step's list. -/
theorem addObservation_coerces_falsy_fields (step : Step) (o : ObsInput) :
    (normalizeObservation { o with score := some (.val 0) }).score = none ∧
    (normalizeObservation { o with result := some [] }).result = none ∧
    (normalizeObservation { o with reason := some [] }).reason = none ∧
    (jsFalsy o.data = true → (normalizeObservation o).data = .obj []) ∧
    (normalizeObservation o).score ≠ some (.val 0) ∧
    (addObservation step o).observations =
      step.observations ++ [normalizeObservation o] := by
  refine ⟨by simp [normalizeObservation, jsNumFalsy, Observation.score], rfl, rfl, ?_, ?_, rfl⟩
  · intro h
    simp [normalizeObservation, h, Observation.data]
  · unfold normalizeObservation
    rcases o.score with _ | n
    · simp [Observation.score]
    · by_cases h : jsNumFalsy n = true <;> simp [h, Observation.score]
      rintro rfl
      simp [jsNumFalsy] at h

/-- C9, witness: the coercions at the all-falsy demo observation. -/
theorem addObservation_coerces_falsy_fields_witness :
    (normalizeObservation { demoObs with score := some (.val 0) }).score = none ∧
    (normalizeObservation { demoObs with result := some [] }).result = none ∧
    (normalizeObservation { demoObs with reason := some [] }).reason = none ∧
    (normalizeObservation demoObs).data = .obj [] ∧
    (normalizeObservation demoObs).score ≠ some (.val 0) ∧
    (addObservation demoStep demoObs).observations =
      demoStep.observations ++ [normalizeObservation demoObs] := by
  have h := addObservation_coerces_falsy_fields demoStep demoObs
  exact ⟨h.1, h.2.1, h.2.2.1, h.2.2.2.1 (by decide), h.2.2.2.2.1, h.2.2.2.2.2⟩

/-- The first component of the wrapped call's outcome is always the mutated
parameter object, whatever the underlying call does. -/
theorem instrumentedChat_fst (p : ChatParams) (call : ChatParams → Except JsErr ChatResult) :
    (instrumentedChat p call).1 = { p with message := injectMessage p.message } := by
  cases h : call { p with message := injectMessage p.message } with
  | ok r => simp [instrumentedChat, h]
  | error e => simp [instrumentedChat, h]

/-- C8: when the underlying call throws, the wrapped chat records the
exception on the span, sets the span status to error with the exception's
message, re-throws the same exception to the caller, and the span is ended;
moreover the span is ended on every exit path. -/
theorem chat_error_path_records_and_rethrows :
    (∀ (params : ChatParams) (call : ChatParams → Except JsErr ChatResult) (e : JsErr),
      call { params with message := injectMessage params.message } = .error e →
        (instrumentedChat params call).2.1 = .error e ∧
        (instrumentedChat params call).2.2.status = .errSet e.message ∧
        (instrumentedChat params call).2.2.exceptions = [e] ∧
        (instrumentedChat params call).2.2.ended = true) ∧
    (∀ (params : ChatParams) (call : ChatParams → Except JsErr ChatResult),
      (instrumentedChat params call).2.2.ended = true) := by
  constructor
  · intro params call e h
    simp [instrumentedChat, h]
  · intro params call
    unfold instrumentedChat
    cases h : call { params with message := injectMessage params.message } with
    | ok r => simp [h]
    | error e => simp [h]

/-- C8, witness: the error path at the demo parameters and the failing demo
call. -/
theorem chat_error_path_records_and_rethrows_witness :
    ((instrumentedChat demoParams demoCallErr).2.1 = .error demoErr ∧
      (instrumentedChat demoParams demoCallErr).2.2.status = .errSet demoErr.message ∧
      (instrumentedChat demoParams demoCallErr).2.2.exceptions = [demoErr] ∧
      (instrumentedChat demoParams demoCallErr).2.2.ended = true) ∧
    (instrumentedChat demoParams demoCallOK).2.2.ended = true :=
  ⟨chat_error_path_records_and_rethrows.1 demoParams demoCallErr demoErr rfl,
    chat_error_path_records_and_rethrows.2 demoParams demoCallOK⟩

/-- C10, counterexample to the claim as stated: a supplied empty-string
message is falsy, so the wrapped call does not inject the directive into it;
the caller's message stays empty instead of gaining the directive suffix. -/
theorem empty_message_not_injected :
    (instrumentedChat { message := .str [], model := none, temperature := none }
        demoCallOK).1.message = .str [] ∧
      (([] : Str) ++ directive) ≠ ([] : Str) := by
  exact ⟨rfl, by decide⟩

/-- C10, amended: for every chat call whose parameters carry a nonempty
string message, the caller's parameter object leaves the call mutated in
place — its message equals the original message with the injected directive
suffix appended — whatever the underlying call does. -/
theorem nonempty_message_mutated_in_place (m : Str) (hm : m ≠ [])
    (model : Option Str) (temp : Option JsNum)
    (call : ChatParams → Except JsErr ChatResult) :
    (instrumentedChat { message := .str m, model := model, temperature := temp }
        call).1.message = .str (m ++ directive) := by
  have hme : m.isEmpty = false := by cases m with
    | nil => exact absurd rfl hm
    | cons c cs => rfl
  rw [instrumentedChat_fst]
  simp [injectMessage, hme]

/-- C10, witness: the mutation at the demo message. -/
theorem nonempty_message_mutated_in_place_witness :
    (instrumentedChat { message := .str "Hi".data, model := none, temperature := none }
        demoCallOK).1.message = .str ("Hi".data ++ directive) :=
  nonempty_message_mutated_in_place "Hi".data (by decide) none none demoCallOK

/-- Before its final endStep call the projector's step carries the span's
recorded duration. -/
theorem projectedStepCore_durationMs (sid st : String) (span : ReadableSpan) (t : ℚ) :
    (projectedStepCore sid st span t).durationMs = some (hrToMs span.duration) := by
  simp only [projectedStepCore, startStep, setInput, setOutput, setReasoning,
    addObservation, addEvent]
  repeat' split
  all_goals rfl

/-- Before its final endStep call the projector's step starts at the span's
recorded start time. -/
theorem projectedStepCore_startedAt (sid st : String) (span : ReadableSpan) (t : ℚ) :
    (projectedStepCore sid st span t).startedAt = truncMs (hrToMs span.startTime) := by
  simp only [projectedStepCore, startStep, setInput, setOutput, setReasoning,
    addObservation, addEvent]
  repeat' split
  all_goals rfl

/-- As the projector leaves it, the step's duration is the projection-time
clock reading minus the span's start — the endStep call at the end of onEnd
recomputes it, discarding the span's recorded duration. -/
theorem projectedStep_durationMs (sid st : String) (span : ReadableSpan) (t : ℚ) :
    (projectedStep sid st span t).durationMs =
      some (((truncMs t - truncMs (hrToMs span.startTime) : ℤ) : ℚ)) := by
  have h1 : (projectedStep sid st span t).durationMs
      = some (((truncMs t - (projectedStepCore sid st span t).startedAt : ℤ) : ℚ)) := rfl
  rw [h1, projectedStepCore_startedAt]

/-- C1: at the claim's own input — span start 1,000,000,100 ns, end
1,000,000,900 ns, recorded duration 800 ns — the step's duration is first set
to the span's 800 ns (0.0008 ms, line 411 of the processor), but the
processor then ends the step through endStep, which restamps the end with the
projection-time clock (here 5000 ms) and overwrites the duration with
wall-clock-minus-span-start (4000 ms), so the projected step's final duration
does not equal the span's recorded duration. -/
theorem span_duration_overwritten_at_projection :
    hrToMs demoSpan.duration = 1 / 1250 ∧
    (projectedStepCore "sid" "stp" demoSpan 5000).durationMs = some (1 / 1250) ∧
    (projectedStep "sid" "stp" demoSpan 5000).durationMs = some (4000 : ℚ) ∧
    ((4000 : ℚ) ≠ 1 / 1250) := by
  have hd : hrToMs demoSpan.duration = 1 / 1250 := by
    norm_num [hrToMs, demoSpan]
  refine ⟨hd, ?_, ?_, by norm_num⟩
  · rw [projectedStepCore_durationMs, hd]
  · rw [projectedStep_durationMs]
    have h1 : truncMs (5000 : ℚ) = 5000 := by
      rw [truncMs, if_pos (by norm_num)]
      exact Int.floor_intCast 5000
    have h2 : truncMs (hrToMs demoSpan.startTime) = 1000 := by
      have : hrToMs demoSpan.startTime = 1000 + 1 / 10000 := by
        norm_num [hrToMs, demoSpan]
      rw [this, truncMs, if_pos (by norm_num)]
      exact Int.floor_eq_iff.mpr (by constructor <;> norm_num)
    rw [h1, h2]
    norm_num

/-- C7: wrapping a call whose raw response is the synthetic two-line text
yields the clean text on both the returned result and the span's response
attribute, the extracted reasoning on the span's reasoning attribute, and the
text returned to the caller does not contain the REASON suffix. -/
theorem chat_round_trip_strips_reason :
    (match (instrumentedChat demoParams demoCallOK).2.1 with
      | .ok r => r.text
      | .error _ => none) = some "Hello there".data ∧
    (instrumentedChat demoParams demoCallOK).2.2.respText = some "Hello there".data ∧
    (instrumentedChat demoParams demoCallOK).2.2.respReasoning = some "Testing".data ∧
    containsSub "Hello there".data "REASON".data = false :=
  ⟨by decide, by decide, by decide, by decide⟩

/-- C3, counterexample to the claim as stated: for the text with an
unparsable CONFIDENCE value the parser stores NaN — the JavaScript parseFloat
failure value — in the confidence field, which is not null. -/
theorem confidence_unparsable_is_nan_not_null :
    (parseDecisionFromResponse (some "CONFIDENCE: high".data)).confidence
        = some JsNum.nan ∧
      (parseDecisionFromResponse (some "CONFIDENCE: high".data)).confidence ≠ none :=
  ⟨by decide, by decide⟩

/-- C3, amended: whenever the CONFIDENCE marker is captured and the captured
value does not parse as a float, the returned decision's confidence is NaN
(not null); the parse is a total function, so it never raises. -/
theorem confidence_parse_failure_yields_nan (t raw : Str)
    (hmatch : findFieldMatch t kwConfidence = some raw)
    (hnan : jsParseFloat (trimStr raw) = JsNum.nan) :
    (parseDecisionFromResponse (some t)).confidence = some JsNum.nan := by
  cases t with
  | nil => exact absurd hmatch (by simp [findFieldMatch])
  | cons c cs =>
    show (yesNoFallback (c :: cs) (markerPass (c :: cs))).confidence = some JsNum.nan
    rw [yesNoFallback_confidence]
    show ((findFieldMatch (c :: cs) kwConfidence).map trimStr).map jsParseFloat
        = some JsNum.nan
    rw [hmatch]
    simp [hnan]

/-- C3, witness: the amended statement at the unparsable demo text. -/
theorem confidence_parse_failure_yields_nan_witness :
    (parseDecisionFromResponse (some "CONFIDENCE: high".data)).confidence
      = some JsNum.nan :=
  confidence_parse_failure_yields_nan "CONFIDENCE: high".data "high".data
    (by decide) (by decide)

/-- The YES branch of the fallback: when the raw-field map has no decision
entry, the non-blank lines are nonempty and the first contains YES, the
fallback sets the flag and records the decision. -/
theorem yesNoFallback_yes (t : Str) (r : ParsedDecision) (l : Str) (ls : List Str)
    (hgate : r.rawFields "decision" = none)
    (hlines : (splitOnChar '\n' t).filter (fun x => (trimStr x).isEmpty = false) = l :: ls)
    (hyes : containsSubCI l ("YES".data) = true) :
    (yesNoFallback t r).yesNo = some true ∧
    (yesNoFallback t r).rawFields "decision" = some ("YES".data) := by
  unfold yesNoFallback
  rw [hgate, hlines]
  simp only [Option.isSome_none, Bool.false_eq_true, if_false, hyes, if_true]
  split <;> exact ⟨rfl, by simp⟩

/-- C4, counterexample to the claim as stated: for a text whose grammar pass
captures a reasoning field and whose first line contains YES, the fallback
still runs — the returned yes/no flag is true (not null) and the raw-field
map does contain a decision entry. -/
theorem fallback_runs_despite_captured_reasoning :
    (parseDecisionFromResponse (some "YES\nREASON: because".data)).rawFields "reasoning"
        = some "because".data ∧
    (parseDecisionFromResponse (some "YES\nREASON: because".data)).yesNo = some true ∧
    (parseDecisionFromResponse (some "YES\nREASON: because".data)).yesNo ≠ none ∧
    (parseDecisionFromResponse (some "YES\nREASON: because".data)).rawFields "decision"
        = some "YES".data :=
  ⟨by decide, by decide, by decide, by decide⟩

/-- C4, amended: the fallback's guard reads the decision raw field, which the
marker pass never writes, so the guard never blocks it: for every text whose
first non-blank line contains YES (case-insensitively) — whether or not a
reasoning field was captured — the returned decision has the yes/no flag set
true and a decision entry in the raw-field map; a truthy captured reasoning
value itself is still never overwritten. -/
theorem fallback_always_runs_on_yes_first_line (t l : Str) (ls : List Str)
    (hlines : (splitOnChar '\n' t).filter (fun x => (trimStr x).isEmpty = false) = l :: ls)
    (hyes : containsSubCI l ("YES".data) = true) :
    (markerPass t).rawFields "decision" = none ∧
    (parseDecisionFromResponse (some t)).yesNo = some true ∧
    (parseDecisionFromResponse (some t)).rawFields "decision" = some ("YES".data) := by
  refine ⟨rfl, ?_⟩
  cases t with
  | nil => simp [splitOnChar, trimStr] at hlines
  | cons c cs =>
    show (yesNoFallback (c :: cs) (markerPass (c :: cs))).yesNo = some true ∧
      (yesNoFallback (c :: cs) (markerPass (c :: cs))).rawFields "decision"
        = some ("YES".data)
    exact yesNoFallback_yes (c :: cs) (markerPass (c :: cs)) l ls rfl hlines hyes

/-- C4, witness: the amended statement at a plain YES answer. -/
theorem fallback_always_runs_on_yes_first_line_witness :
    (markerPass "YES\nhello".data).rawFields "decision" = none ∧
    (parseDecisionFromResponse (some "YES\nhello".data)).yesNo = some true ∧
    (parseDecisionFromResponse (some "YES\nhello".data)).rawFields "decision"
      = some ("YES".data) :=
  fallback_always_runs_on_yes_first_line "YES\nhello".data "YES".data ["hello".data]
    (by decide) (by decide)

/-- C6, counterexample to the claim as stated: a REASON marker whose capture
trims to the empty string is an explicit captured reasoning field, yet the
falsy-reasoning guard of the fallback overwrites it with the joined remaining
lines. -/
theorem empty_explicit_reasoning_overwritten :
    (parseDecisionFromResponse (some "YES\nREASON: ".data)).rawFields "reasoning"
        = some [] ∧
    (parseDecisionFromResponse (some "YES\nREASON: ".data)).reasoning
        = some "REASON:".data ∧
    some ("REASON:".data) ≠ some ([] : Str) :=
  ⟨by decide, by decide, by decide⟩

/-- C6, amended: whenever the grammar captures a reasoning value that is
nonempty after trimming, the returned decision's reasoning equals that
captured value — the fallback never overwrites a truthy explicit reasoning
field. -/
theorem truthy_explicit_reasoning_preserved (t raw : Str)
    (hmatch : findFieldMatch t kwReasoning = some raw)
    (hne : trimStr raw ≠ []) :
    (parseDecisionFromResponse (some t)).reasoning = some (trimStr raw) := by
  cases t with
  | nil => exact absurd hmatch (by simp [findFieldMatch])
  | cons c cs =>
    show (yesNoFallback (c :: cs) (markerPass (c :: cs))).reasoning = some (trimStr raw)
    have hr : (markerPass (c :: cs)).reasoning = some (trimStr raw) := by
      show ((findFieldMatch (c :: cs) kwReasoning).map trimStr) = some (trimStr raw)
      rw [hmatch]
      rfl
    have hemp : (trimStr raw).isEmpty = false := by
      cases htr : trimStr raw with
      | nil => exact absurd htr hne
      | cons a as => rfl
    have hfalsy : strFalsy (markerPass (c :: cs)).reasoning = false := by
      rw [hr]
      show (trimStr raw).isEmpty = false
      exact hemp
    rw [yesNoFallback_reasoning _ _ hfalsy, hr]

/-- C6, witness: the amended statement at a text with both a YES first line
and a truthy REASON capture. -/
theorem truthy_explicit_reasoning_preserved_witness :
    (parseDecisionFromResponse (some "YES\nREASON: ok".data)).reasoning
      = some (trimStr "ok".data) :=
  truthy_explicit_reasoning_preserved "YES\nREASON: ok".data "ok".data
    (by decide) (by decide)

/-- Elements of a takeWhile prefix satisfy the predicate. -/
theorem mem_takeWhile_pred {p : Char → Bool} :
    ∀ (l : Str) (x : Char), x ∈ l.takeWhile p → p x = true := by
  intro l
  induction l with
  | nil => intro x hx; simp [List.takeWhile] at hx
  | cons c cs ih =>
    intro x hx
    rw [List.takeWhile] at hx
    by_cases hc : p c = true
    · rw [hc] at hx
      simp only [List.mem_cons] at hx
      rcases hx with rfl | hx
      · exact hc
      · exact ih x hx
    · rw [Bool.not_eq_true] at hc
      rw [hc] at hx
      simp at hx

/-- Elements of a take prefix are elements of the list. -/
theorem mem_of_mem_take_pref : ∀ (n : Nat) (l : Str) (x : Char), x ∈ l.take n → x ∈ l := by
  intro n l x hx
  exact List.mem_of_mem_take hx

/-- When dropWhile removes everything, every element satisfied the
predicate. -/
theorem all_of_dropWhile_nil {p : Char → Bool} :
    ∀ (l : Str), l.dropWhile p = [] → ∀ x ∈ l, p x = true := by
  intro l
  induction l with
  | nil => intro _ x hx; simp at hx
  | cons c cs ih =>
    intro h x hx
    rw [List.dropWhile] at h
    by_cases hc : p c = true
    · rw [hc] at h
      simp only [List.mem_cons] at hx
      rcases hx with rfl | hx
      · exact hc
      · exact ih h x hx
    · rw [Bool.not_eq_true] at hc
      rw [hc] at h
      simp at h

/-- A one-element capture has no interior split, hence no interior stop. -/
theorem interiorFree_of_length_one {raw suffix : Str} (h : raw.length = 1) :
    interiorFree raw suffix := by
  intro a b hab ha hb
  exfalso
  have hlen := congrArg List.length hab
  rw [List.length_append] at hlen
  rcases a with _ | ⟨a1, as⟩
  · exact ha rfl
  rcases b with _ | ⟨b1, bs⟩
  · exact hb rfl
  simp [h] at hlen
  omega

/-- Soundness of the case-insensitive keyword strip: the text decomposes as
the matched characters followed by the remainder, and the matched characters
equal the keyword case-insensitively. -/
theorem stripCI_sound : ∀ (kw t m r : Str), stripCI t kw = some (m, r) →
    t = m ++ r ∧ ciEqStr m kw = true := by
  intro kw
  induction kw with
  | nil =>
    intro t m r h
    simp [stripCI] at h
    obtain ⟨rfl, rfl⟩ := h
    exact ⟨rfl, rfl⟩
  | cons k ks ih =>
    intro t m r h
    cases t with
    | nil => simp [stripCI] at h
    | cons c cs =>
      simp only [stripCI] at h
      by_cases hc : charCI c k = true
      · rw [if_pos hc] at h
        cases hm : stripCI cs ks with
        | none => rw [hm] at h; simp at h
        | some p =>
          rw [hm] at h
          have h' : some ((c :: p.1, p.2) : Str × Str) = some (m, r) := h
          obtain ⟨hm1, hr1⟩ := Prod.mk.injEq .. ▸ Option.some.inj h'
          subst hm1
          subst hr1
          obtain ⟨h1, h2⟩ := ih cs p.1 p.2 hm
          constructor
          · rw [List.cons_append, ← h1]
          · simp [ciEqStr, hc, h2]
      · rw [if_neg hc] at h
        simp at h

/-- Soundness of the keyword-plus-colon strip. -/
theorem stripKwColon_sound (t kw m rest : Str) (h : stripKwColon t kw = some (m, rest)) :
    t = m ++ ':' :: rest ∧ ciEqStr m kw = true := by
  unfold stripKwColon at h
  split at h
  · rename_i m2 rest2 heq
    obtain ⟨hm1, hr1⟩ := Prod.mk.injEq .. ▸ Option.some.inj h
    subst hm1
    subst hr1
    exact stripCI_sound kw t m2 (':' :: rest2) heq
  · exact absurd h (by simp)

/-- The lazy capture decomposes its input: the capture is a nonempty prefix,
the lookahead holds right after it, and it holds nowhere strictly inside the
capture. -/
theorem captureFrom_spec : ∀ (s : Str), s ≠ [] →
    ∃ suffix, s = captureFrom s ++ suffix ∧ stopHere suffix = true ∧
      captureFrom s ≠ [] ∧ interiorFree (captureFrom s) suffix := by
  intro s
  induction s with
  | nil => intro h; exact absurd rfl h
  | cons c cs ih =>
    intro _
    by_cases hs : stopHere cs = true
    · refine ⟨cs, ?_, hs, ?_, ?_⟩
      · simp [captureFrom, hs]
      · simp [captureFrom, hs]
      · have hone : (captureFrom (c :: cs)).length = 1 := by simp [captureFrom, hs]
        exact interiorFree_of_length_one hone
    · have hcs : cs ≠ [] := by
        rintro rfl
        exact hs rfl
      obtain ⟨suffix, h1, h2, h3, h4⟩ := ih hcs
      have hcap : captureFrom (c :: cs) = c :: captureFrom cs := by
        simp [captureFrom, hs]
      refine ⟨suffix, ?_, h2, by simp [hcap], ?_⟩
      · rw [hcap, List.cons_append, ← h1]
      · intro a b hab ha hb
        rw [hcap] at hab
        rcases a with _ | ⟨a1, as⟩
        · exact absurd rfl ha
        · simp only [List.cons_append, List.cons.injEq] at hab
          obtain ⟨rfl, hab2⟩ := hab
          rcases as with _ | ⟨a2, as2⟩
          · have hbs : b ++ suffix = cs := by
              rw [List.nil_append] at hab2
              rw [← hab2, ← h1]
            rw [hbs]
            cases hq : stopHere cs with
            | false => rfl
            | true => exact absurd hq hs
          · exact h4 (a2 :: as2) b hab2 (by simp) hb

/-- Soundness of the after-colon completion: the remainder decomposes as
consumed whitespace, the nonempty capture, and a suffix at which the
lookahead holds, with no interior stop. -/
theorem matchAfterColon_spec (rest raw : Str) (h : matchAfterColon rest = some raw) :
    ∃ w suffix, rest = w ++ raw ++ suffix ∧ (∀ x ∈ w, isJsWhitespace x = true) ∧
      raw ≠ [] ∧ stopHere suffix = true ∧ interiorFree raw suffix := by
  unfold matchAfterColon at h
  simp only [] at h
  rcases hdw : rest.dropWhile isJsWhitespace with _ | ⟨d, ds⟩
  · rw [hdw] at h
    rcases hrest : rest with _ | ⟨c, cs⟩
    · subst hrest
      simp at h
    · subst hrest
      have h' : some ((c :: cs).drop ((c :: cs).length - 1)) = some raw := h
      have hraw : raw = (c :: cs).drop ((c :: cs).length - 1) := (Option.some.inj h').symm
      have hlenraw : raw.length = 1 := by
        rw [hraw, List.length_drop]
        simp
      refine ⟨(c :: cs).take ((c :: cs).length - 1), [], ?_, ?_, ?_, rfl, ?_⟩
      · rw [List.append_nil, hraw, List.take_append_drop]
      · intro x hx
        exact all_of_dropWhile_nil (c :: cs) hdw x (mem_of_mem_take_pref _ (c :: cs) x hx)
      · rintro rfl
        simp at hlenraw
      · exact interiorFree_of_length_one hlenraw
  · rw [hdw] at h
    have h' : some (captureFrom (d :: ds)) = some raw := h
    have hraw : raw = captureFrom (d :: ds) := (Option.some.inj h').symm
    obtain ⟨suffix, h1, h2, h3, h4⟩ := captureFrom_spec (d :: ds) (by simp)
    refine ⟨rest.takeWhile isJsWhitespace, suffix, ?_, ?_, ?_, h2, ?_⟩
    · rw [hraw, List.append_assoc, ← h1, ← hdw, List.takeWhile_append_dropWhile]
    · exact fun x hx => mem_takeWhile_pred rest x hx
    · rw [hraw]; exact h3
    · rw [hraw]; exact h4

/-- Soundness of the alternation: a successful position yields some keyword
of the table matched case-insensitively, followed by a colon and a remainder
the completion accepts. -/
theorem tryAlts_spec : ∀ (kws : List Str) (t raw : Str), tryAlts t kws = some raw →
    ∃ kw, kw ∈ kws ∧ ∃ m rest, t = m ++ ':' :: rest ∧ ciEqStr m kw = true ∧
      matchAfterColon rest = some raw := by
  intro kws
  induction kws with
  | nil => intro t raw h; simp [tryAlts] at h
  | cons kw kws ih =>
    intro t raw h
    simp only [tryAlts] at h
    split at h
    · rename_i m0 rest0 heq
      split at h
      · rename_i raw0 hmac
        have hr : raw0 = raw := Option.some.inj h
        subst hr
        obtain ⟨ht, hci⟩ := stripKwColon_sound t kw m0 rest0 heq
        exact ⟨kw, List.mem_cons_self kw kws, m0, rest0, ht, hci, hmac⟩
      · obtain ⟨kw2, hmem, m2, rest2, ht, hci, hmac⟩ := ih t raw h
        exact ⟨kw2, List.mem_cons_of_mem kw hmem, m2, rest2, ht, hci, hmac⟩
    · obtain ⟨kw2, hmem, m2, rest2, ht, hci, hmac⟩ := ih t raw h
      exact ⟨kw2, List.mem_cons_of_mem kw hmem, m2, rest2, ht, hci, hmac⟩

/-- Soundness of the leftmost scan: a successful overall match happens at some
split of the text, the alternation succeeding on the right part. -/
theorem findFieldMatch_spec : ∀ (t : Str) (kws : List Str) (raw : Str),
    findFieldMatch t kws = some raw →
    ∃ pre rest, t = pre ++ rest ∧ tryAlts rest kws = some raw := by
  intro t
  induction t with
  | nil => intro kws raw h; simp [findFieldMatch] at h
  | cons c cs ih =>
    intro kws raw h
    simp only [findFieldMatch] at h
    split at h
    · rename_i raw2 heq
      exact ⟨[], c :: cs, rfl, by rw [heq]; exact h⟩
    · obtain ⟨pre, rest, heq2, htry⟩ := ih kws raw h
      exact ⟨c :: pre, rest, by rw [List.cons_append, ← heq2], htry⟩

/-- A successful match exhibits an occurrence of some keyword of the table
followed by a colon. -/
theorem occursKw_of_findFieldMatch (t : Str) (kws : List Str) (raw : Str)
    (h : findFieldMatch t kws = some raw) : occursKw t kws := by
  obtain ⟨pre, rest, hteq, htry⟩ := findFieldMatch_spec t kws raw h
  obtain ⟨kw, hkw, m, rest2, hre, hci, _⟩ := tryAlts_spec kws rest raw htry
  refine ⟨pre, m, rest2, kw, hkw, ?_, hci⟩
  rw [hteq, hre]
  simp [List.append_assoc]

/-- A marker keyword that does not occur in the text (with its colon,
case-insensitively) is absent from the grammar's result. -/
theorem findFieldMatch_none_of_not_occurs (t : Str) (kws : List Str)
    (h : ¬ occursKw t kws) : findFieldMatch t kws = none := by
  cases hf : findFieldMatch t kws with
  | none => rfl
  | some raw => exact absurd (occursKw_of_findFieldMatch t kws raw hf) h

/-- C5, counterexample to the claim as stated: the stored value is trimmed of
whitespace only — surrounding double quotes are retained, not stripped — and
the capture stops before a lowercase word followed by a colon at the start of
a line, not only before an UPPERCASE one (the regex's ignore-case flag also
applies to its lookahead class). -/
theorem capture_keeps_quotes_and_stops_at_lowercase :
    (parseDecisionFromResponse (some "AGENT: \"slack_dm\"".data)).agent
        = some "\"slack_dm\"".data ∧
    (parseDecisionFromResponse (some "AGENT: \"slack_dm\"".data)).agent
        ≠ some "slack_dm".data ∧
    extractField "AGENT: a\nlow: b".data kwAgent = some "a".data ∧
    extractField "AGENT: a\nlow: b".data kwAgent ≠ some "a\nlow: b".data :=
  ⟨by decide, by decide, by decide, by decide⟩

/-- C5, amended: for every marker captured by the grammar, the stored value
is the raw capture trimmed of surrounding whitespace only (quotes and
emphasis punctuation are retained); the raw capture is nonempty and sits in
the text right after the case-insensitively matched keyword and its colon
plus consumed whitespace; immediately after it the lookahead holds (a
marker-shaped token at the start of a line — a word of letters of either
case or underscores and a colon, since the ignore-case flag applies to the
lookahead class too — or the end of the text), and the lookahead holds
nowhere strictly inside the capture, so the capture runs up to the next such
token or the end of the text; a marker that does not occur in the text is
absent from the result. -/
theorem capture_shape_of_field_grammar (t : Str) (kws : List Str) (raw : Str) :
    (findFieldMatch t kws = some raw →
      extractField t kws = some (trimStr raw) ∧
      raw ≠ [] ∧
      ∃ pre kw m w suffix, kw ∈ kws ∧ ciEqStr m kw = true ∧
        t = pre ++ m ++ ':' :: (w ++ raw ++ suffix) ∧
        (∀ x ∈ w, isJsWhitespace x = true) ∧
        stopHere suffix = true ∧ interiorFree raw suffix) ∧
    (¬ occursKw t kws → findFieldMatch t kws = none) := by
  constructor
  · intro h
    refine ⟨by simp [extractField, h], ?_⟩
    obtain ⟨pre, rest, hteq, htry⟩ := findFieldMatch_spec t kws raw h
    obtain ⟨kw, hkw, m, rest2, hre, hci, hmac⟩ := tryAlts_spec kws rest raw htry
    obtain ⟨w, suffix, hr2, hw, hraw, hstop, hint⟩ := matchAfterColon_spec rest2 raw hmac
    refine ⟨hraw, pre, kw, m, w, suffix, hkw, hci, ?_, hw, hstop, hint⟩
    rw [hteq, hre, hr2]
    simp [List.append_assoc]
  · exact findFieldMatch_none_of_not_occurs t kws

/-- C5, witness: the amended statement at a concrete two-line text, the match
hypothesis discharged by evaluation. -/
theorem capture_shape_of_field_grammar_witness :
    extractField "AGENT: x\nB: y".data kwAgent = some (trimStr "x".data) ∧
    "x".data ≠ [] ∧
    ∃ pre kw m w suffix, kw ∈ kwAgent ∧ ciEqStr m kw = true ∧
      "AGENT: x\nB: y".data = pre ++ m ++ ':' :: (w ++ "x".data ++ suffix) ∧
      (∀ x ∈ w, isJsWhitespace x = true) ∧
      stopHere suffix = true ∧ interiorFree "x".data suffix :=
  (capture_shape_of_field_grammar "AGENT: x\nB: y".data kwAgent "x".data).1 (by decide)

end XRay
